import Mathlib

/-!
Verification of the room relay & synchronization core of
`loro-websocket-deno-server-example` against its specification.

Embedding conventions:
* `Uint8Array` values are `List Nat` (each element a byte / decoded code point).
* Strings that reach the wire are ASCII in every scenario exercised here, so
  `TextEncoder`/`TextDecoder` are modelled by mapping characters to their code
  points (for code points below 128 this coincides with UTF-8 bytes).
* Fallible JavaScript code (functions that `throw`) returns `Except String _`.
* The external document engine (loro-crdt) is out of scope per the spec; where
  a claim depends on it, the engine call is an explicit function parameter or
  is abstracted by the version-vector bookkeeping the claim is about.
-/

namespace LoroWs

/-! ## JSON.parse model

`parseMessage` feeds `data.slice(1)` through `TextDecoder` and `JSON.parse`
(src/msg.ts:90-93).  The parsed value is only inspected by the client, not by
any code a claim quantifies over, so `JSON.parse` is modelled as a validator:
a lexer for JSON tokens followed by a pushdown check of the JSON grammar
(ECMA-404, the grammar accepted by `JSON.parse`).  Bytes ≥ 0x80 inside string
bodies are accepted: `TextDecoder` maps any such byte sequence to non-control
scalar values (or U+FFFD), all of which are legal unescaped JSON string
characters; outside strings they can never start a valid token, and the lexer
rejects them. -/

def isJsonWs (b : Nat) : Bool :=
  b = 32 || b = 9 || b = 10 || b = 13

def isDigit (b : Nat) : Bool :=
  48 ≤ b && b ≤ 57

def isHexDigit (b : Nat) : Bool :=
  isDigit b || (65 ≤ b && b ≤ 70) || (97 ≤ b && b ≤ 102)

/-- Consume the body of a JSON string after its opening quote; return the rest
of the input after the closing quote, or `none` if the body is malformed. -/
def lexStrBody : List Nat → Option (List Nat)
  | [] => none
  | 34 :: rest => some rest
  | 92 :: c :: rest =>
      if c = 117 then
        match rest with
        | h1 :: h2 :: h3 :: h4 :: r =>
            if isHexDigit h1 && isHexDigit h2 && isHexDigit h3 && isHexDigit h4 then
              lexStrBody r
            else none
        | _ => none
      else if c = 34 || c = 92 || c = 47 || c = 98 || c = 102 || c = 110 ||
          c = 114 || c = 116 then
        lexStrBody rest
      else none
  | [92] => none
  | b :: rest => if b < 32 then none else lexStrBody rest

/-- Consume a maximal run of decimal digits, returning how many were taken. -/
def takeDigits : List Nat → Nat × List Nat
  | [] => (0, [])
  | b :: rest =>
      if isDigit b then
        let r := takeDigits rest
        (r.1 + 1, r.2)
      else (0, b :: rest)

/-- Consume the optional fraction and exponent following the integer part of a
JSON number. -/
def lexNumTail (input : List Nat) : Option (List Nat) :=
  let fr : Bool × List Nat :=
    match input with
    | 46 :: r =>
        let d := takeDigits r
        (decide (0 < d.1), d.2)
    | _ => (true, input)
  if fr.1 then
    match fr.2 with
    | e :: r =>
        if e = 101 || e = 69 then
          let r2 := match r with
            | 43 :: rr => rr
            | 45 :: rr => rr
            | _ => r
          let d := takeDigits r2
          if 0 < d.1 then some d.2 else none
        else some (e :: r)
    | [] => some []
  else none

/-- Consume a JSON number starting at the head of the input. -/
def lexNum (input : List Nat) : Option (List Nat) :=
  let i1 := match input with
    | 45 :: r => r
    | _ => input
  match i1 with
  | b :: r =>
      if b = 48 then lexNumTail r
      else if isDigit b then lexNumTail (takeDigits r).2
      else none
  | [] => none

inductive JTok where
  | lbrace | rbrace | lbrack | rbrack | colon | comma | jstr | jnum | jlit
deriving DecidableEq

/-- Tokenize a JSON text.  Fuel bounds the recursion; every token or skipped
whitespace byte consumes at least one input byte, so `length + 1` fuel always
suffices. -/
def lexJson : Nat → List Nat → Option (List JTok)
  | 0, _ => none
  | _, [] => some []
  | fuel + 1, b :: rest =>
      if isJsonWs b then lexJson fuel rest
      else if b = 123 then (lexJson fuel rest).map (JTok.lbrace :: ·)
      else if b = 125 then (lexJson fuel rest).map (JTok.rbrace :: ·)
      else if b = 91 then (lexJson fuel rest).map (JTok.lbrack :: ·)
      else if b = 93 then (lexJson fuel rest).map (JTok.rbrack :: ·)
      else if b = 58 then (lexJson fuel rest).map (JTok.colon :: ·)
      else if b = 44 then (lexJson fuel rest).map (JTok.comma :: ·)
      else if b = 34 then
        match lexStrBody rest with
        | some r2 => (lexJson fuel r2).map (JTok.jstr :: ·)
        | none => none
      else if b = 45 || isDigit b then
        match lexNum (b :: rest) with
        | some r2 => (lexJson fuel r2).map (JTok.jnum :: ·)
        | none => none
      else if b = 116 then
        match rest with
        | 114 :: 117 :: 101 :: r2 => (lexJson fuel r2).map (JTok.jlit :: ·)
        | _ => none
      else if b = 102 then
        match rest with
        | 97 :: 108 :: 115 :: 101 :: r2 => (lexJson fuel r2).map (JTok.jlit :: ·)
        | _ => none
      else if b = 110 then
        match rest with
        | 117 :: 108 :: 108 :: r2 => (lexJson fuel r2).map (JTok.jlit :: ·)
        | _ => none
      else none

inductive JFrame where
  | farr | fobj
deriving DecidableEq

inductive JState where
  | needVal | needValOrRB | needKeyOrRC | needKey | needColon | afterVal
deriving DecidableEq

/-- Pushdown check that a token sequence forms exactly one JSON value. -/
def chk : List JTok → List JFrame → JState → Bool
  | [], stack, st =>
      match st, stack with
      | JState.afterVal, [] => true
      | _, _ => false
  | t :: ts, stack, st =>
      match st with
      | JState.needVal =>
          match t with
          | JTok.jstr => chk ts stack JState.afterVal
          | JTok.jnum => chk ts stack JState.afterVal
          | JTok.jlit => chk ts stack JState.afterVal
          | JTok.lbrack => chk ts (JFrame.farr :: stack) JState.needValOrRB
          | JTok.lbrace => chk ts (JFrame.fobj :: stack) JState.needKeyOrRC
          | _ => false
      | JState.needValOrRB =>
          match t with
          | JTok.rbrack =>
              match stack with
              | JFrame.farr :: s2 => chk ts s2 JState.afterVal
              | _ => false
          | JTok.jstr => chk ts stack JState.afterVal
          | JTok.jnum => chk ts stack JState.afterVal
          | JTok.jlit => chk ts stack JState.afterVal
          | JTok.lbrack => chk ts (JFrame.farr :: stack) JState.needValOrRB
          | JTok.lbrace => chk ts (JFrame.fobj :: stack) JState.needKeyOrRC
          | _ => false
      | JState.needKeyOrRC =>
          match t with
          | JTok.rbrace =>
              match stack with
              | JFrame.fobj :: s2 => chk ts s2 JState.afterVal
              | _ => false
          | JTok.jstr => chk ts stack JState.needColon
          | _ => false
      | JState.needKey =>
          match t with
          | JTok.jstr => chk ts stack JState.needColon
          | _ => false
      | JState.needColon =>
          match t with
          | JTok.colon => chk ts stack JState.needVal
          | _ => false
      | JState.afterVal =>
          match stack with
          | [] => false
          | JFrame.farr :: s2 =>
              match t with
              | JTok.comma => chk ts stack JState.needVal
              | JTok.rbrack => chk ts s2 JState.afterVal
              | _ => false
          | JFrame.fobj :: s2 =>
              match t with
              | JTok.comma => chk ts stack JState.needKey
              | JTok.rbrace => chk ts s2 JState.afterVal
              | _ => false

/-- `JSON.parse` succeeds on the decoded text exactly when this holds. -/
def jsonValid (payload : List Nat) : Bool :=
  match lexJson (payload.length + 1) payload with
  | some toks => chk toks [] JState.needVal
  | none => false

/-! ## Wire codec (src/msg.ts) -/

inductive UpdateType where
  | ephemeral | awareness | crdt
deriving DecidableEq

inductive Message where
  /-- `{ type: "update", updateType, payload }` -/
  | update (updateType : UpdateType) (payload : List Nat)
  /-- `{ type: "ack", roomInfo }`; the JSON payload is kept as raw bytes since
  `JSON.parse` is modelled as validation. -/
  | ack (roomInfoJson : List Nat)
deriving DecidableEq

/-- src/msg.ts:67-98 `parseMessage`.  JavaScript indexing out of range yields
`undefined`, which falls through to the `default`/throwing branches, hence the
`Option`-valued lookups.  The source interpolates the offending byte into the
thrown `Error` message; the model uses fixed error strings. -/
def parseMessage (data : List Nat) : Except String Message :=
  if data[0]? = some 1 then
    if data[1]? = some 0 then Except.ok (Message.update UpdateType.ephemeral (data.drop 2))
    else if data[1]? = some 1 then Except.ok (Message.update UpdateType.awareness (data.drop 2))
    else if data[1]? = some 2 then Except.ok (Message.update UpdateType.crdt (data.drop 2))
    else Except.error "Unknown update type"
  else if data[0]? = some 2 then
    if jsonValid (data.drop 1) then Except.ok (Message.ack (data.drop 1))
    else Except.error "JSON parse error"
  else Except.error "Unknown message type"

def messageOk : Except String Message → Bool
  | Except.ok _ => true
  | Except.error _ => false

/-- The update-kind byte written by `encodeUpdateMessage`'s nested ternary. -/
def updateTypeByte : UpdateType → Nat
  | UpdateType.ephemeral => 0
  | UpdateType.awareness => 1
  | UpdateType.crdt => 2

/-- src/msg.ts:100-113 `encodeUpdateMessage`. -/
def encodeUpdateMessage (updateType : UpdateType) (payload : List Nat) : List Nat :=
  1 :: updateTypeByte updateType :: payload

/-- `TextEncoder().encode` on the ASCII strings used here (code point = byte). -/
def asciiBytes (s : String) : List Nat :=
  s.data.map Char.toNat

/-- `JSON.stringify` on a string containing no character that needs escaping
(true of every room identifier exercised here): wrap in quotes. -/
def jsonStringEncode (s : String) : String :=
  "\"" ++ s ++ "\""

structure RoomInfo where
  roomId : String
  isNewRoom : Bool
deriving DecidableEq

/-- `JSON.stringify` on a `RoomInfo` record (field order as declared). -/
def jsonOfRoomInfo (i : RoomInfo) : String :=
  "\x7b\"roomId\":" ++ jsonStringEncode i.roomId ++ ",\"isNewRoom\":" ++
    (if i.isNewRoom then "true" else "false") ++ "\x7d"

/-- src/msg.ts:115-123 `encodeServerAckMessage`, applied to an actual
`RoomInfo` record as its signature declares. -/
def encodeServerAckMessage (roomInfo : RoomInfo) : List Nat :=
  2 :: asciiBytes (jsonOfRoomInfo roomInfo)

/-- The ack frame the server actually sends: src/serve.ts:91 passes the bare
`roomId` string where `encodeServerAckMessage` expects a `RoomInfo` record
(untyped at runtime), so `JSON.stringify` emits a JSON string literal. -/
def connectionAckFrame (roomId : String) : List Nat :=
  2 :: asciiBytes (jsonStringEncode roomId)

/-! ## Server (src/serve.ts) -/

/-- src/serve.ts:6-11 `Room`.  `participants` keeps the keys of the
`Map<WebSocket, string>` (connection handles as `Nat`; every stored token is
`""` and never read).  `awareness` is the engine-owned presence handle,
summarized by the bytes `awareness.encodeAll()` currently returns. -/
structure Room where
  participants : List Nat
  lastActive : Int
  awareness : List Nat
  crdtData : List (List Nat)
deriving DecidableEq

/-- src/serve.ts:163-169 `broadcastToRoom`: the sends performed, as
(participant, raw bytes) pairs, iterating the participants map. -/
def broadcastToRoom (participants : List Nat) (sender : Nat) (data : List Nat) :
    List (Nat × List Nat) :=
  (participants.filter (fun p => p ≠ sender)).map (fun p => (p, data))

/-- Result of one run of the per-connection message listener. -/
structure ServerStep where
  room : Room
  /-- sends performed by `broadcastToRoom` -/
  sent : List (Nat × List Nat)
  /-- whether the `console.error("Unexpected message type", ...)` branch ran -/
  loggedError : Bool
deriving DecidableEq

/-- src/serve.ts:94-114, the `message` listener for one inbound frame.
`awApply` abstracts the engine call `currentRoom.awareness.apply(payload)`.
A `parseMessage` failure propagates out of the listener (the source wraps
nothing in try/catch), modelled by returning the error. -/
def handleMessage (awApply : List Nat → List Nat → List Nat) (now : Int)
    (room : Room) (sender : Nat) (data : List Nat) : Except String ServerStep :=
  match parseMessage data with
  | Except.error e => Except.error e
  | Except.ok (Message.ack _) => Except.ok ⟨room, [], true⟩
  | Except.ok (Message.update t payload) =>
      let room1 : Room := { room with lastActive := now }
      let sent := broadcastToRoom room1.participants sender data
      let room2 : Room :=
        match t with
        | UpdateType.ephemeral => room1
        | UpdateType.awareness => { room1 with awareness := awApply room1.awareness payload }
        | UpdateType.crdt => { room1 with crdtData := room1.crdtData ++ [payload] }
      Except.ok ⟨room2, sent, false⟩

/-- src/serve.ts:69-75 `sendInitDataOfRoom`: the frames it sends, in order.
Each stored `crdtData` element is sent as-is (`ws.send(d)`), then one
awareness frame `new Uint8Array([1, 1, ...bytes])`. -/
def sendInitDataOfRoom (room : Room) : List (List Nat) :=
  room.crdtData ++ [1 :: 1 :: room.awareness]

/-- src/serve.ts:87-92, the frames the connection handler sends on accepting a
connection: the ack built from the bare `roomId` (serve.ts:91), then
`sendInitDataOfRoom`. -/
def connectionInitFrames (roomId : String) (room : Room) : List (List Nat) :=
  connectionAckFrame roomId :: sendInitDataOfRoom room

/-- src/serve.ts:32, the garbage-collection condition of `cleanupRooms`. -/
def gcEligible (now roomTimeout : Int) (room : Room) : Bool :=
  room.participants.isEmpty && decide (now - room.lastActive > roomTimeout)

/-- src/serve.ts:29-61, the body of `cleanupRooms` for one room.  `snap`
abstracts the engine sequence `new Loro(); doc.importUpdateBatch(data);
doc.exportSnapshot()` on the full `crdtData` sequence, `none` standing for a
thrown engine error (caught and logged by the source).  `none` as the result
means the room is deleted from the registry; the `onCompaction` hook returns a
promise that is never awaited, so it does not affect room state. -/
def sweepRoom (snap : List (List Nat) → Option (List Nat)) (now roomTimeout : Int)
    (room : Room) : Option Room :=
  if gcEligible now roomTimeout room then none
  else if 16 < room.crdtData.length then
    match snap room.crdtData with
    | some s => some { room with crdtData := [s] }
    | none => some room
  else some room

/-- src/serve.ts:29-61 `cleanupRooms` over the whole registry. -/
def cleanupRooms (snap : List (List Nat) → Option (List Nat)) (now roomTimeout : Int)
    (reg : List (String × Room)) : List (String × Room) :=
  reg.filterMap fun e =>
    match sweepRoom snap now roomTimeout e.2 with
    | some r => some (e.1, r)
    | none => none

/-! ## Client sync agent (src/client.ts)

The loro document is abstracted by its version vector: a `List Nat` mapping
peer index to the number of that peer's ops the document holds (`vvGet` reads
0 beyond the list).  `doc.exportFrom(v)` is then determined by the pair
(v, doc's version): the ops present in the doc and not covered by `v`. -/

def vvGet (v : List Nat) (p : Nat) : Nat := v.getD p 0

def vvLeB (a b : List Nat) : Bool :=
  (List.range (max a.length b.length)).all fun p => decide (vvGet a p ≤ vvGet b p)

/-- loro `VersionVector.compare`: `none` exactly when the vectors are
incomparable (the only outcome the client inspects). -/
def vvCompare (a b : List Nat) : Option Ordering :=
  if vvLeB a b && vvLeB b a then some Ordering.eq
  else if vvLeB a b then some Ordering.lt
  else if vvLeB b a then some Ordering.gt
  else none

/-- An exported crdt delta `doc.exportFrom(base)` where the doc's version is
`head`: the ops (peer, index) with `base peer ≤ index < head peer`. -/
structure CrdtDelta where
  base : List Nat
  head : List Nat
deriving DecidableEq

def exportFrom (docVV base : List Nat) : CrdtDelta := ⟨base, docVV⟩

/-- The set of ops a delta carries (shows when two deltas differ in content,
not merely in representation). -/
def deltaOps (d : CrdtDelta) : List (Nat × Nat) :=
  (List.range d.head.length).flatMap fun p =>
    (List.range' (vvGet d.base p) (vvGet d.head p - vvGet d.base p)).map fun i => (p, i)

/-- Version vector of a doc after `doc.import`: pointwise max. -/
def vvMerge (a b : List Nat) : List Nat :=
  (List.range (max a.length b.length)).map fun p => max (vvGet a p) (vvGet b p)

/-- src/client.ts:94-113, the `crdt` case of the client's `onmessage` handler
run over a stream of incoming crdt payloads, each abstracted by the version
vector a fresh doc reaches after importing it (`newVV`, client.ts:97-99).
State: the `isFirst` flag and the local doc's version vector.  Returns the
reconciliation frames sent via `sendUpdate(socket, "crdt", ...)`: on the first
payload only, and only when `newVV.compare(vv) == null`, the client sends
`doc.exportFrom(newVV)` (client.ts:100-107) before importing the payload. -/
def clientCrdtLoop : Bool → List Nat → List (List Nat) → List CrdtDelta
  | _, _, [] => []
  | true, vv, p :: rest =>
      (if vvCompare p vv = none then [exportFrom vv p] else []) ++
        clientCrdtLoop false (vvMerge vv p) rest
  | false, vv, p :: rest => clientCrdtLoop false (vvMerge vv p) rest

/-! ### Socket close handling (src/client.ts) -/

inductive CloseAction where
  | unsubscribe | removeListener | logDisconnect
deriving DecidableEq

/-- First handler assigned to `socket.onclose` (client.ts:67-74): if `sub` is
set, `doc.unsubscribe(sub)`; if `awareness` was supplied, remove its
listener. -/
def oncloseFirst (subSet awSet : Bool) : List CloseAction :=
  (if subSet then [CloseAction.unsubscribe] else []) ++
    (if awSet then [CloseAction.removeListener] else [])

/-- Second handler assigned to `socket.onclose` (client.ts:118-120): log the
disconnect only. -/
def oncloseSecond (_subSet _awSet : Bool) : List CloseAction :=
  [CloseAction.logDisconnect]

/-- `socket.onclose` is a single mutable property; `connectRoom`'s executor
assigns it twice (client.ts:67 then client.ts:118), so the handler in effect
once `connectRoom` returns is the last assignment. -/
def connectRoomOnclose : Bool → Bool → List CloseAction :=
  [oncloseFirst, oncloseSecond].getLastD oncloseFirst

/-! ## Theorems -/

/-- **C1.** The claim that the Join-Acknowledgment frame carries the JSON
object `\x7broomId, isNewRoom\x7d` fails on the code: serve.ts:91 passes the bare
`roomId` string to `encodeServerAckMessage`, so the frame sent on accepting a
connection to room `"test"` is `[2]` followed by the JSON string literal
`"test"`, which differs from the ack frame for `\x7broomId := "test"\x7d` with either
value of `isNewRoom` (and carries no `isNewRoom` at all). -/
theorem c1_ack_frame_lacks_isNewRoom :
    connectionAckFrame "test" = [2, 34, 116, 101, 115, 116, 34] ∧
    connectionAckFrame "test" ≠ encodeServerAckMessage ⟨"test", true⟩ ∧
    connectionAckFrame "test" ≠ encodeServerAckMessage ⟨"test", false⟩ := by
  decide

/-- **C2.** The claim that each `pendingUpdates` element is sent prefixed with
message-kind byte 1 and update-kind byte 2 fails on the code: on a join to a
room whose `crdtData` is `[[5]]` and whose encoded awareness is `[9]`, the
handler sends the ack, then the stored payload `[5]` verbatim with no header
(serve.ts:70-71), then the awareness frame `[1, 1, 9]`; the document-update
frame for payload `[5]` would be `[1, 2, 5]`. -/
theorem c2_init_data_sent_unframed :
    connectionInitFrames "r" ⟨[7], 0, [9], [[5]]⟩ =
      [[2, 34, 114, 34], [5], [1, 1, 9]] ∧
    [5] ≠ encodeUpdateMessage UpdateType.crdt [5] := by
  decide

/-- **C3 counterexample.** With local version vector `[1, 0]` captured before
any import and a first incoming payload whose fresh-doc version vector is
`[0, 1]` (incomparable), the client sends the frame `exportFrom [1, 0] [0, 1]`
= ops of the local doc not covered by the server's vector — not the delta
since the captured local vector, which at that point is empty. -/
theorem c3_reconciliation_delta_counterexample :
    clientCrdtLoop true [1, 0] [[0, 1]] = [CrdtDelta.mk [0, 1] [1, 0]] ∧
    CrdtDelta.mk [0, 1] [1, 0] ≠ exportFrom [1, 0] [1, 0] ∧
    deltaOps (CrdtDelta.mk [0, 1] [1, 0]) = [(0, 0)] ∧
    deltaOps (exportFrom [1, 0] [1, 0]) = [] := by
  decide

/-- **C3 (amended).** On the first incoming crdt payload, the client sends
exactly one reconciliation frame, containing `doc.exportFrom(newVV)` — the
local delta relative to the version vector decoded from the server's payload —
when `newVV` is incomparable with the local version vector captured before any
import, and sends none when they are comparable; later payloads never trigger
a reconciliation send. -/
theorem c3_first_crdt_reconciliation (vv p : List Nat) (rest : List (List Nat)) :
    clientCrdtLoop true vv (p :: rest) =
      if vvCompare p vv = none then [exportFrom vv p] else [] := by
  have hrest : ∀ (l : List (List Nat)) (v : List Nat), clientCrdtLoop false v l = [] := by
    intro l
    induction l with
    | nil => intro v; rfl
    | cons a l ih => intro v; exact ih _
  by_cases hc : vvCompare p vv = none
  · simp [clientCrdtLoop, hc, hrest]
  · simp [clientCrdtLoop, hc, hrest]

/-- **C9.** The claim that close handling ends with the subscription released
fails on the code: client.ts assigns `socket.onclose` twice (lines 67 and
118); the second assignment replaces the cleanup handler, so even with a live
subscription and awareness listener the handler in effect on close only logs
and never runs `doc.unsubscribe`. -/
theorem c9_onclose_never_unsubscribes :
    connectRoomOnclose true true = [CloseAction.logDisconnect] ∧
    CloseAction.unsubscribe ∉ connectRoomOnclose true true ∧
    CloseAction.unsubscribe ∈ oncloseFirst true true := by
  decide

/-- **C10 counterexample.** The input `[2]` has first byte 2, for which the
claim asserts `parseMessage` returns a value; it throws instead, because the
kind-2 branch feeds the empty payload to `JSON.parse`. -/
theorem c10_kind2_invalid_json_throws :
    ([2] : List Nat)[0]? = some 2 ∧ messageOk (parseMessage [2]) = false := by
  decide

/-- **C10 (amended).** `parseMessage` returns a value exactly when the first
byte is 1 and the second byte is 0, 1 or 2, or the first byte is 2 and the
remaining bytes are valid JSON; every other input (unknown message kind,
absent kind bytes, unknown update kind, unparsable ack payload) throws, and in
particular kind 0 is never accepted. -/
theorem c10_parse_ok_iff (data : List Nat) :
    messageOk (parseMessage data) = true ↔
      (data[0]? = some 1 ∧
        (data[1]? = some 0 ∨ data[1]? = some 1 ∨ data[1]? = some 2)) ∨
      (data[0]? = some 2 ∧ jsonValid (data.drop 1) = true) := by
  unfold parseMessage
  split_ifs with h1 h2 h3 h4 h5 h6 <;> simp_all [messageOk]

/-- **C4.** A frame that fails to decode is not dropped-and-logged by the
server: the message listener calls `parseMessage` with no try/catch, so the
parse error propagates out of the listener (first conjunct, at the malformed
frame `[3, 9]`), with no broadcast and no state change having occurred; a
frame that decodes to a non-Update message is logged and otherwise ignored,
leaving the room unchanged and broadcasting nothing (second conjunct, at a
kind-2 frame with payload `null`). -/
theorem c4_malformed_frame_raises :
    ∀ (awApply : List Nat → List Nat → List Nat) (now : Int) (room : Room) (sender : Nat),
      handleMessage awApply now room sender [3, 9] = Except.error "Unknown message type" ∧
      handleMessage awApply now room sender [2, 110, 117, 108, 108] =
        Except.ok ⟨room, [], true⟩ := by
  intro awApply now room sender
  exact ⟨rfl, rfl⟩

/-- **C5.** Every update frame received from participant `sender` of a room is
broadcast as the identical raw bytes to every other participant currently
registered, and never back to `sender`. -/
theorem c5_broadcast_excludes_sender (awApply : List Nat → List Nat → List Nat)
    (now : Int) (room : Room) (sender : Nat) (data : List Nat)
    (t : UpdateType) (payload : List Nat)
    (h : parseMessage data = Except.ok (Message.update t payload)) :
    ∃ step : ServerStep, handleMessage awApply now room sender data = Except.ok step ∧
      step.sent = broadcastToRoom room.participants sender data ∧
      (∀ p, p ∈ room.participants → p ≠ sender → (p, data) ∈ step.sent) ∧
      (∀ q, q ∈ step.sent → q.1 ∈ room.participants ∧ q.1 ≠ sender ∧ q.2 = data) := by
  have hred : ∃ r2 : Room, handleMessage awApply now room sender data =
      Except.ok ⟨r2, broadcastToRoom room.participants sender data, false⟩ := by
    unfold handleMessage
    rw [h]
    cases t
    · exact ⟨_, rfl⟩
    · exact ⟨_, rfl⟩
    · exact ⟨_, rfl⟩
  obtain ⟨r2, hred⟩ := hred
  refine ⟨_, hred, rfl, ?_, ?_⟩
  · intro p hp hne
    simp only [broadcastToRoom, List.mem_map, List.mem_filter]
    exact ⟨p, ⟨hp, by simpa using hne⟩, rfl⟩
  · intro q hq
    simp only [broadcastToRoom, List.mem_map, List.mem_filter] at hq
    obtain ⟨p, ⟨hp, hps⟩, rfl⟩ := hq
    exact ⟨hp, by simpa using hps, rfl⟩

theorem c5_broadcast_witness :
    ∃ step : ServerStep,
      handleMessage (fun a _ => a) 0 ⟨[1, 2, 3], 0, [], []⟩ 2 [1, 0, 9] = Except.ok step ∧
      step.sent = broadcastToRoom [1, 2, 3] 2 [1, 0, 9] ∧
      (∀ p, p ∈ ([1, 2, 3] : List Nat) → p ≠ 2 → (p, [1, 0, 9]) ∈ step.sent) ∧
      (∀ q, q ∈ step.sent → q.1 ∈ ([1, 2, 3] : List Nat) ∧ q.1 ≠ 2 ∧ q.2 = [1, 0, 9]) :=
  c5_broadcast_excludes_sender (fun a _ => a) 0 ⟨[1, 2, 3], 0, [], []⟩ 2 [1, 0, 9]
    UpdateType.ephemeral [9] rfl

/-- **C6.** A room visited by the sweep that is not GC-eligible and has more
than 16 pending updates either has its `crdtData` replaced by exactly the
one-element sequence holding the snapshot the engine folds from the full prior
sequence, or — when the engine fold fails — keeps its prior `crdtData` exactly
unchanged. -/
theorem c6_compaction_all_or_nothing (snap : List (List Nat) → Option (List Nat))
    (now roomTimeout : Int) (room : Room)
    (hgc : gcEligible now roomTimeout room = false)
    (hlen : 16 < room.crdtData.length) :
    (∃ s, snap room.crdtData = some s ∧
        sweepRoom snap now roomTimeout room = some { room with crdtData := [s] }) ∨
    (snap room.crdtData = none ∧ sweepRoom snap now roomTimeout room = some room) := by
  unfold sweepRoom
  rw [hgc]
  simp only [Bool.false_eq_true, if_false, if_pos hlen]
  cases hs : snap room.crdtData with
  | some s => exact Or.inl ⟨s, rfl, rfl⟩
  | none => exact Or.inr ⟨rfl, rfl⟩

def snapConst : List (List Nat) → Option (List Nat) := fun _ => some []

def room17 : Room := ⟨[1], 0, [], List.replicate 17 []⟩

theorem c6_compaction_witness :
    (∃ s, snapConst room17.crdtData = some s ∧
        sweepRoom snapConst 0 5 room17 = some { room17 with crdtData := [s] }) ∨
    (snapConst room17.crdtData = none ∧ sweepRoom snapConst 0 5 room17 = some room17) :=
  c6_compaction_all_or_nothing snapConst 0 5 room17 (by decide) (by decide)

/-- **C7.** The sweep removes a room from the registry only when its
participants map is empty and `now - lastActive` exceeds `roomTimeout`; a room
with at least one participant always survives the sweep, however idle. -/
theorem c7_gc_only_empty_idle (snap : List (List Nat) → Option (List Nat))
    (now roomTimeout : Int) (reg : List (String × Room)) (id : String) (room : Room)
    (hmem : (id, room) ∈ reg) :
    ((∀ r2 : Room, (id, r2) ∉ cleanupRooms snap now roomTimeout reg) →
        room.participants = [] ∧ now - room.lastActive > roomTimeout) ∧
    (room.participants ≠ [] → ∃ r2, (id, r2) ∈ cleanupRooms snap now roomTimeout reg) := by
  have hsurv : gcEligible now roomTimeout room = false →
      ∃ r2, (id, r2) ∈ cleanupRooms snap now roomTimeout reg := by
    intro hgc
    have hsweep : ∃ r2, sweepRoom snap now roomTimeout room = some r2 := by
      unfold sweepRoom
      rw [hgc]
      simp only [Bool.false_eq_true, if_false]
      by_cases hl : 16 < room.crdtData.length
      · rw [if_pos hl]
        cases hs : snap room.crdtData
        · exact ⟨_, rfl⟩
        · exact ⟨_, rfl⟩
      · rw [if_neg hl]
        exact ⟨_, rfl⟩
    obtain ⟨r2, hr2⟩ := hsweep
    refine ⟨r2, ?_⟩
    unfold cleanupRooms
    exact List.mem_filterMap.mpr ⟨(id, room), hmem, by simp [hr2]⟩
  constructor
  · intro hall
    by_cases hgc : gcEligible now roomTimeout room = true
    · unfold gcEligible at hgc
      simp only [Bool.and_eq_true, List.isEmpty_iff, decide_eq_true_eq] at hgc
      exact hgc
    · obtain ⟨r2, hr2⟩ := hsurv (by simpa using hgc)
      exact absurd hr2 (hall r2)
  · intro hne
    apply hsurv
    unfold gcEligible
    simp [List.isEmpty_iff, hne]

def regW : List (String × Room) := [("a", ⟨[1], 0, [], []⟩)]

theorem c7_gc_witness :
    ((∀ r2 : Room, ("a", r2) ∉ cleanupRooms snapConst 0 5 regW) →
        (Room.mk [1] 0 [] []).participants = [] ∧
          (0 : Int) - (Room.mk [1] 0 [] []).lastActive > 5) ∧
    ((Room.mk [1] 0 [] []).participants ≠ [] →
        ∃ r2, ("a", r2) ∈ cleanupRooms snapConst 0 5 regW) :=
  c7_gc_only_empty_idle snapConst 0 5 regW "a" (Room.mk [1] 0 [] []) (by simp [regW])

/-- **C8.** For every update kind and payload, parsing the encoding returns an
update message with the same kind and payload, and the encoding is exactly
`2 + len(payload)` bytes. -/
theorem c8_update_roundtrip (t : UpdateType) (p : List Nat) :
    parseMessage (encodeUpdateMessage t p) = Except.ok (Message.update t p) ∧
    (encodeUpdateMessage t p).length = 2 + p.length := by
  cases t <;>
    refine ⟨?_, by simp only [encodeUpdateMessage, List.length_cons]; omega⟩ <;>
    simp [parseMessage, encodeUpdateMessage, updateTypeByte]

end LoroWs
